import Mathlib

/-!
Verification of the chess-vision repository: a shallow embedding of
`app.py` (engine session best-move reader), `chess_image_gen.py`
(FEN validation, random playout sampling, flip-aware coordinate
transform, position renderer), `gen_dataset.py` (dataset generator) and
`validate_dataset.py` (metadata validator).

External collaborators (the python-chess rules library, the Python
`random` module, the Pillow drawing library, the filesystem) are modelled
as explicit parameters or effect traces; the control flow, arithmetic and
string manipulation of the repository's own code are translated directly.
-/

namespace ChessVision

/-! ### Python string primitives used by `app.py`

`str.strip()` and `str.split()` (no arguments) and the substring test
`"bestmove" in line` are modelled character-list by character-list,
following Python's semantics: `strip` removes leading and trailing
whitespace, `split` tokenizes on runs of whitespace discarding empty
tokens, `in` is contiguous-substring containment. -/

/-- Python's default whitespace set for `str.strip`/`str.split`. -/
def pyIsWs (c : Char) : Bool :=
  c == ' ' || c == '\t' || c == '\n' || c == '\r' || c == '\x0b' || c == '\x0c'

/-- Drop leading whitespace characters. -/
def dropWs : List Char → List Char
  | [] => []
  | c :: cs => if pyIsWs c then dropWs cs else c :: cs

/-- Python `str.strip()`: remove leading and trailing whitespace. -/
def pyStripChars (l : List Char) : List Char :=
  (dropWs (dropWs l).reverse).reverse

/-- Worker for `pySplitChars`; `acc` holds the current token reversed. -/
def pySplitAux (acc : List Char) : List Char → List (List Char)
  | [] => if acc.isEmpty then [] else [acc.reverse]
  | c :: cs =>
    if pyIsWs c then
      if acc.isEmpty then pySplitAux [] cs
      else acc.reverse :: pySplitAux [] cs
    else pySplitAux (c :: acc) cs

/-- Python `str.split()` with no arguments: split on runs of whitespace,
no empty tokens. -/
def pySplitChars (l : List Char) : List (List Char) :=
  pySplitAux [] l

/-- Predicate `listStarts pat s`: true when `pat` is an initial segment of `s`. -/
def listStarts : List Char → List Char → Bool
  | [], _ => true
  | _ :: _, [] => false
  | p :: ps, c :: cs => p == c && listStarts ps cs

/-- Python's `pat in s` for strings: contiguous substring containment. -/
def listHasSub (pat : List Char) : List Char → Bool
  | [] => listStarts pat []
  | c :: cs => listStarts pat (c :: cs) || listHasSub pat cs

/-! ### `app.py` — the engine session's best-move reader -/

/-- The best-move marker of the engine text protocol. -/
def bestmove_marker : String := "bestmove"

/-- Outcome of running `get_bestmove` against a finite engine output
stream.  `found m` is a normal return; `indexErr` is the `IndexError`
raised by `line.split()[1]` when the marker line has fewer than two
tokens; `hangs` records that the stream was exhausted: after end-of-file
`readline()` returns `""` forever, the `while True` loop never takes
either branch again, so the call never returns. -/
inductive BestmoveOutcome where
  | found (move : String)
  | indexErr
  | hangs

/-- Function `get_bestmove` of `app.py`: read lines, strip each, and at the first
line containing `"bestmove"` return `line.split()[1]`.  The stream is the
finite list of lines the engine writes before closing its output; the
`print` logging of each line has no bearing on the returned value and is
omitted. -/
def get_bestmove : List String → BestmoveOutcome
  | [] => BestmoveOutcome.hangs
  | line :: rest =>
    let l := pyStripChars line.data
    if listHasSub bestmove_marker.data l then
      match pySplitChars l with
      | _ :: m :: _ => BestmoveOutcome.found (String.mk m)
      | _ => BestmoveOutcome.indexErr
    else get_bestmove rest

example : get_bestmove ["info depth 1", "bestmove e2e4 ponder e7e5"] =
    BestmoveOutcome.found "e2e4" := by rfl

example : pySplitChars "  bestmove e2e4 ".data = ["bestmove".data, "e2e4".data] := by decide

/-- C1.  On an engine output stream that ends (end-of-file) before any
line containing the best-move marker — here the stream that closes
immediately, as with a fake engine that exits at once — `get_bestmove`
does not fail with any error: it loops forever re-reading the empty
string (`BestmoveOutcome.hangs`).  The spec's required
`EngineProtocolError` does not exist anywhere in the code; this theorem
evaluates the code at the failing input. -/
theorem get_bestmove_eof_hangs : get_bestmove [] = BestmoveOutcome.hangs := rfl

/-- C4.  For every sequence of engine output lines, `get_bestmove` scans
line by line; at the first line in which the best-move marker appears
(no earlier line contains it), if that line begins `bestmove <move> ...`
— its stripped form tokenizes to `"bestmove" :: move :: rest` — then the
returned move is the token immediately following the marker, i.e. the
line's second token. -/
theorem get_bestmove_first_marker (pre post : List String) (line m : String)
    (rest : List (List Char))
    (hpre : ∀ l ∈ pre, listHasSub bestmove_marker.data (pyStripChars l.data) = false)
    (hline : listHasSub bestmove_marker.data (pyStripChars line.data) = true)
    (htok : pySplitChars (pyStripChars line.data) = bestmove_marker.data :: m.data :: rest) :
    get_bestmove (pre ++ line :: post) = BestmoveOutcome.found m := by
  induction pre with
  | nil =>
    simp only [List.nil_append, get_bestmove, hline, if_true, htok]
  | cons a pre ih =>
    have ha : listHasSub bestmove_marker.data (pyStripChars a.data) = false :=
      hpre a (List.mem_cons_self a pre)
    have hpre' : ∀ l ∈ pre, listHasSub bestmove_marker.data (pyStripChars l.data) = false :=
      fun l hl => hpre l (List.mem_cons_of_mem a hl)
    simpa only [List.cons_append, get_bestmove, ha, Bool.false_eq_true, if_false] using ih hpre'

/-- Witness for C4 at a concrete stream: two non-marker lines around the
marker line `bestmove e2e4 ponder e7e5`, whose second token `e2e4` is
returned. -/
theorem get_bestmove_first_marker_witness :
    get_bestmove ["info depth 1 seldepth 1", "bestmove e2e4 ponder e7e5", "readyok"] =
      BestmoveOutcome.found "e2e4" :=
  get_bestmove_first_marker ["info depth 1 seldepth 1"] ["readyok"]
    "bestmove e2e4 ponder e7e5" "e2e4" ["ponder".data, "e7e5".data]
    (by decide) (by decide) (by decide)

/-! ### `chess_image_gen.py` — coordinate transform -/

/-- Function `algebraic_to_xy` of `chess_image_gen.py`: map a (file index, rank
index) square to the (pixel column, pixel row) cell of the drawn grid,
honouring the board-flip flag.  Python integers are unbounded, so `Int`. -/
def algebraic_to_xy (file_idx rank_idx : Int) (flipped : Bool) : Int × Int :=
  if flipped then (7 - file_idx, rank_idx)
  else (file_idx, 7 - rank_idx)

/-- C2.  For every file index and rank index in 0..7: with the flip flag
off, `algebraic_to_xy` yields pixel column `file_idx` and pixel row
`7 - rank_idx`; with the flip flag on, pixel column `7 - file_idx` and
pixel row `rank_idx`. -/
theorem algebraic_to_xy_spec (f r : Int)
    (hf0 : 0 ≤ f) (hf7 : f ≤ 7) (hr0 : 0 ≤ r) (hr7 : r ≤ 7) :
    algebraic_to_xy f r false = (f, 7 - r) ∧
    algebraic_to_xy f r true = (7 - f, r) := by
  constructor <;> simp [algebraic_to_xy]

/-- Witness for C2 at file 2, rank 5. -/
theorem algebraic_to_xy_spec_witness :
    algebraic_to_xy 2 5 false = (2, 2) ∧ algebraic_to_xy 2 5 true = (5, 5) :=
  algebraic_to_xy_spec 2 5 (by decide) (by decide) (by decide) (by decide)

/-- C8.  For every file index and rank index in 0..7, mirroring both
coordinates of the unflipped transform — sending its result `(x, y)` to
`(7 - x, 7 - y)` — gives exactly the flipped transform's result:
rendering unflipped and then flipping the output arrangement equals
rendering flipped directly, square by square. -/
theorem algebraic_to_xy_mirror_eq_flipped (f r : Int)
    (hf0 : 0 ≤ f) (hf7 : f ≤ 7) (hr0 : 0 ≤ r) (hr7 : r ≤ 7) :
    (7 - (algebraic_to_xy f r false).1, 7 - (algebraic_to_xy f r false).2) =
      algebraic_to_xy f r true := by
  simp [algebraic_to_xy]

/-- Witness for C8 at file 0, rank 6. -/
theorem algebraic_to_xy_mirror_eq_flipped_witness :
    (7 - (algebraic_to_xy 0 6 false).1, 7 - (algebraic_to_xy 0 6 false).2) =
      algebraic_to_xy 0 6 true :=
  algebraic_to_xy_mirror_eq_flipped 0 6 (by decide) (by decide) (by decide) (by decide)

/-! ### `chess_image_gen.py` — FEN validation and the renderer's guard

The python-chess library is the out-of-scope rules collaborator; its
`chess.Board(fen)` constructor together with `board.is_valid()` is
modelled as a parameter `lib : String → Except String Bool`:
`Except.error e` is the exception (with message) the constructor raises
on an unparseable FEN, `Except.ok v` means construction succeeded and
`is_valid()` returned `v` (`false` for e.g. a position whose
side-to-move's king is already capturable). -/

/-- Function `is_legal_fen` of `chess_image_gen.py`: `True` iff `chess.Board(fen)`
constructs without exception and the resulting board `is_valid()`. -/
def is_legal_fen (lib : String → Except String Bool) (fen : String) : Bool :=
  match lib fen with
  | Except.ok v => v
  | Except.error _ => false

/-- One observable effect of `render_position` after its validation
guard: a Pillow drawing operation or the final file save. -/
inductive RenderEffect where
  | draw
  | save (path : String)

/-- Function `render_position` of `chess_image_gen.py`, up to its validation
guard: if `is_legal_fen` rejects the FEN it raises
`ValueError("Provided FEN is not a legal position.")` having produced no
effect; otherwise it proceeds into the drawing body (board construction,
grid painting, glyph/sprite drawing, file save), abstracted as the
parameter `rest` since it is pure Pillow calls, and returns whatever the
body returns.  The result pairs the effect trace with the returned
output path or raised error. -/
def render_position (lib : String → Except String Bool)
    (rest : String → List RenderEffect × Except String String)
    (fen : String) : List RenderEffect × Except String String :=
  if is_legal_fen lib fen = false then
    ([], Except.error "Provided FEN is not a legal position.")
  else rest fen

/-- C6.  Every input string that does not parse to a structurally and
rules-legal position (the constructor raises, or the constructed
position fails `is_valid()`, e.g. side-to-move's king capturable) is
rejected by `render_position` with the validation error before any
drawing or file output occurs — the effect trace is empty; and for a
rules-legal FEN the validation step does not raise: the call proceeds
into the drawing body unchanged. -/
theorem render_position_validates (lib : String → Except String Bool)
    (rest : String → List RenderEffect × Except String String) (fen : String) :
    (is_legal_fen lib fen = false →
      render_position lib rest fen =
        ([], Except.error "Provided FEN is not a legal position.")) ∧
    (lib fen = Except.ok true → render_position lib rest fen = rest fen) := by
  constructor
  · intro h
    simp [render_position, h]
  · intro h
    simp [render_position, is_legal_fen, h]

/-- Witness for C6 with a concrete rules library that accepts exactly the
initial-position FEN as legal, rejects one FEN as constructible but
invalid, and raises on everything else. -/
theorem render_position_validates_witness :
    (render_position
        (fun s =>
          if s = "rnbqkbnr/pppppppp/8/8/8/8/PPPPPPPP/RNBQKBNR w KQkq - 0 1" then Except.ok true
          else if s = "k7/8/8/8/8/8/8/KK6 w - - 0 1" then Except.ok false
          else Except.error "ParseError")
        (fun _ => ([RenderEffect.draw, RenderEffect.save "board.png"], Except.ok "board.png"))
        "k7/8/8/8/8/8/8/KK6 w - - 0 1" =
      ([], Except.error "Provided FEN is not a legal position.")) ∧
    (render_position
        (fun s =>
          if s = "rnbqkbnr/pppppppp/8/8/8/8/PPPPPPPP/RNBQKBNR w KQkq - 0 1" then Except.ok true
          else if s = "k7/8/8/8/8/8/8/KK6 w - - 0 1" then Except.ok false
          else Except.error "ParseError")
        (fun _ => ([RenderEffect.draw, RenderEffect.save "board.png"], Except.ok "board.png"))
        "rnbqkbnr/pppppppp/8/8/8/8/PPPPPPPP/RNBQKBNR w KQkq - 0 1" =
      ([RenderEffect.draw, RenderEffect.save "board.png"], Except.ok "board.png")) :=
  ⟨(render_position_validates _ _ _).1 (by decide),
   (render_position_validates _ _ _).2 (by rfl)⟩

/-! ### `chess_image_gen.py` — random playout sampling

The Python `random` module's global generator is modelled as an index
into an abstract stream of raw draws; `random.seed(s)` replaces the
whole generator state by one determined by `s` alone (modelled by a
parameter `seedFn`).  `random.randint(a, b)` returns a value in the
inclusive range `[a, b]`, raising `ValueError` when the range is empty
(`b < a`); `random.choice(seq)` picks an element of `seq` by index.  The
python-chess rules library is again the out-of-scope collaborator,
abstracted as a `ChessRules` interface. -/

/-- State of Python's global `random` generator: an abstract stream of
raw natural-number draws and the index of the next draw. -/
structure PyRandom where
  next : Nat → Nat
  idx : Nat

/-- Consume one raw draw from the generator. -/
def PyRandom.draw (g : PyRandom) : Nat × PyRandom :=
  (g.next g.idx, { g with idx := g.idx + 1 })

/-- Python `random.randint(lo, hi)`: a value in the inclusive range `[lo, hi]`
driven by the generator, or `none` for the `ValueError` raised when the
range `[lo, hi]` is empty (`hi < lo`). -/
def randint (lo hi : Nat) (g : PyRandom) : Option (Nat × PyRandom) :=
  if hi < lo then none
  else some (lo + g.draw.1 % (hi + 1 - lo), g.draw.2)

/-- The interface of the python-chess rules library used by
`random_legal_fen`: the initial `chess.Board()`, `board.legal_moves`,
`board.push(move)`, `board.is_game_over()` and `board.fen()`. -/
structure ChessRules (B M : Type) where
  init : B
  legal_moves : B → List M
  push : B → M → B
  is_game_over : B → Bool
  fen : B → String

/-- The playout loop of `random_legal_fen`: `for _ in range(plies)`, break
when no legal move exists, otherwise `random.choice` a legal move, push
it, and break as soon as the position is game-over. -/
def playoutLoop {B M : Type} (lib : ChessRules B M) :
    Nat → B → PyRandom → B × PyRandom
  | 0, b, g => (b, g)
  | fuel + 1, b, g =>
    match lib.legal_moves b with
    | [] => (b, g)
    | m0 :: ms =>
      let v := g.draw.1
      let g' := g.draw.2
      let m := (m0 :: ms).get ⟨v % (m0 :: ms).length, Nat.mod_lt v (Nat.succ_pos ms.length)⟩
      let b' := lib.push b m
      if lib.is_game_over b' then (b', g') else playoutLoop lib fuel b' g'

/-- Function `random_legal_fen` of `chess_image_gen.py`: optionally reseed the
global generator, draw `plies = random.randint(10, max_plies)` (so `none`
— the `ValueError` — when `max_plies < 10`), play `plies` random legal
moves from the initial position stopping early on game-over or an empty
move list, and return the final position's FEN together with the final
generator state. -/
def random_legal_fen {B M : Type} (lib : ChessRules B M) (seedFn : Nat → PyRandom)
    (max_plies : Nat) (seed : Option Nat) (g : PyRandom) :
    Option (String × PyRandom) :=
  let g0 := match seed with
    | some s => seedFn s
    | none => g
  match randint 10 max_plies g0 with
  | none => none
  | some (plies, g1) =>
    let res := playoutLoop lib plies lib.init g1
    some (lib.fen res.1, res.2)

/-- Relation `ReachableFrom lib b b' n`: position `b'` arises from `b` by exactly
`n` pushed moves, each taken from the legal-move set of the position it
is played in.  Reachability from `lib.init` is the by-construction
legality guarantee of the sampler. -/
inductive ReachableFrom {B M : Type} (lib : ChessRules B M) : B → B → Nat → Prop where
  | refl (b : B) : ReachableFrom lib b b 0
  | step {b bfin : B} {m : M} {n : Nat} :
      m ∈ lib.legal_moves b → ReachableFrom lib (lib.push b m) bfin n →
      ReachableFrom lib b bfin (n + 1)

/-- The playout loop only ever pushes legal moves, at most `fuel` of
them: its result is reachable from its start within `fuel` moves. -/
theorem playoutLoop_reachable {B M : Type} (lib : ChessRules B M) :
    ∀ (fuel : Nat) (b : B) (g : PyRandom),
      ∃ n, n ≤ fuel ∧ ReachableFrom lib b (playoutLoop lib fuel b g).1 n := by
  intro fuel
  induction fuel with
  | zero =>
    intro b g
    exact ⟨0, Nat.le_refl 0, ReachableFrom.refl b⟩
  | succ k ih =>
    intro b g
    rcases hmoves : lib.legal_moves b with _ | ⟨m0, ms⟩
    · refine ⟨0, Nat.zero_le _, ?_⟩
      simp only [playoutLoop, hmoves]
      exact ReachableFrom.refl b
    · simp only [playoutLoop, hmoves]
      split
      · refine ⟨1, by omega, ?_⟩
        exact ReachableFrom.step (by rw [hmoves]; exact List.get_mem _ _ _)
          (ReachableFrom.refl _)
      · obtain ⟨n, hn, hr⟩ := ih
          (lib.push b ((m0 :: ms).get
            ⟨g.draw.1 % (m0 :: ms).length, Nat.mod_lt _ (Nat.succ_pos ms.length)⟩))
          g.draw.2
        exact ⟨n + 1, by omega,
          ReachableFrom.step (by rw [hmoves]; exact List.get_mem _ _ _) hr⟩

/-- C5.  For every plies bound `K ≥ 10`, every seeding choice and every
generator state, `random_legal_fen` returns the FEN of a position that
is legal by construction — reachable from the standard initial position
by `n` applied moves, each drawn from the current legal-move set — with
the ply count drawn from the inclusive range `[10, K]` and `n` at most
that count (early stop), hence at most `K`. -/
theorem random_legal_fen_reachable {B M : Type} (lib : ChessRules B M)
    (seedFn : Nat → PyRandom) (K : Nat) (hK : 10 ≤ K)
    (seed : Option Nat) (g : PyRandom) :
    ∃ (b : B) (gfin : PyRandom) (plies n : Nat),
      random_legal_fen lib seedFn K seed g = some (lib.fen b, gfin) ∧
      10 ≤ plies ∧ plies ≤ K ∧ n ≤ plies ∧ n ≤ K ∧
      ReachableFrom lib lib.init b n := by
  have hnot : ¬ K < 10 := Nat.not_lt.mpr hK
  have hmod : (match seed with | some s => seedFn s | none => g).draw.1 % (K + 1 - 10)
      < K + 1 - 10 := Nat.mod_lt _ (by omega)
  obtain ⟨n, hn, hr⟩ := playoutLoop_reachable lib
    (10 + (match seed with | some s => seedFn s | none => g).draw.1 % (K + 1 - 10))
    lib.init (match seed with | some s => seedFn s | none => g).draw.2
  refine ⟨(playoutLoop lib
      (10 + (match seed with | some s => seedFn s | none => g).draw.1 % (K + 1 - 10))
      lib.init (match seed with | some s => seedFn s | none => g).draw.2).1,
    (playoutLoop lib
      (10 + (match seed with | some s => seedFn s | none => g).draw.1 % (K + 1 - 10))
      lib.init (match seed with | some s => seedFn s | none => g).draw.2).2,
    10 + (match seed with | some s => seedFn s | none => g).draw.1 % (K + 1 - 10),
    n, ?_, by omega, by omega, hn, by omega, hr⟩
  simp only [random_legal_fen, randint, hnot, if_false]

/-- Witness for C5: a one-move toy rules library, plies bound 10, a fixed
seed and a constant draw stream. -/
theorem random_legal_fen_reachable_witness :
    ∃ (b : Nat) (gfin : PyRandom) (plies n : Nat),
      random_legal_fen
          { init := 0, legal_moves := fun _ => [()], push := fun b _ => b + 1,
            is_game_over := fun _ => false, fen := fun b => Nat.repr b }
          (fun s => { next := fun _ => s, idx := 0 }) 10 (some 7)
          { next := fun _ => 3, idx := 0 } =
        some (Nat.repr b, gfin) ∧
      10 ≤ plies ∧ plies ≤ 10 ∧ n ≤ plies ∧ n ≤ 10 ∧
      ReachableFrom
        { init := 0, legal_moves := fun _ => [()], push := fun b _ => b + 1,
          is_game_over := fun _ => false, fen := fun b => Nat.repr b }
        0 b n :=
  random_legal_fen_reachable
    { init := 0, legal_moves := fun _ => [()], push := fun b _ => b + 1,
      is_game_over := fun _ => false, fen := fun b => Nat.repr b }
    (fun s => { next := fun _ => s, idx := 0 }) 10 (by decide) (some 7)
    { next := fun _ => 3, idx := 0 }

/-- C9.  `random_legal_fen` is deterministic given a fixed non-`None`
seed: two calls with the same plies bound and the same seed return
identical results whatever the prior generator states `g` and `g'`,
because seeding replaces the generator state entirely. -/
theorem random_legal_fen_seed_deterministic {B M : Type} (lib : ChessRules B M)
    (seedFn : Nat → PyRandom) (K s : Nat) (g g' : PyRandom) :
    random_legal_fen lib seedFn K (some s) g =
      random_legal_fen lib seedFn K (some s) g' := rfl

/-- C10.  For every `max_plies < 10`, `random_legal_fen` returns no
position: `random.randint(10, max_plies)` is a draw from the empty
inclusive range `10..max_plies` and raises `ValueError`, so the
documented lower bound of 10 is a genuine precondition of the sampler. -/
theorem random_legal_fen_below_min_raises {B M : Type} (lib : ChessRules B M)
    (seedFn : Nat → PyRandom) (K : Nat) (hK : K < 10)
    (seed : Option Nat) (g : PyRandom) :
    random_legal_fen lib seedFn K seed g = none := by
  simp only [random_legal_fen, randint, hK, if_true]

/-- Witness for C10 at plies bound 5. -/
theorem random_legal_fen_below_min_raises_witness :
    random_legal_fen
        { init := 0, legal_moves := fun _ => [()], push := fun b _ => b + 1,
          is_game_over := fun _ => false, fen := fun b => Nat.repr b }
        (fun s => { next := fun _ => s, idx := 0 }) 5 none
        { next := fun _ => 0, idx := 0 } = none :=
  random_legal_fen_below_min_raises
    { init := 0, legal_moves := fun _ => [()], push := fun b _ => b + 1,
      is_game_over := fun _ => false, fen := fun b => Nat.repr b }
    (fun s => { next := fun _ => s, idx := 0 }) 5 (by decide) none
    { next := fun _ => 0, idx := 0 }

/-! ### `gen_dataset.py` — dataset generation

`generate_dataset(n, out_dir, ...)` writes the CSV header once, then for
`i in range(1, n + 1)` samples a FEN, renders the image
`f"{i:06d}.png"`, and writes the row
`[img_file, fen, turn, fullmove_number, castling, en_passant, is_check,
is_game_over]`.  The sampler (successive `random_legal_fen()` results)
is modelled by a function `sample` from the iteration number to the
sampled FEN, and the six columns derived from `chess.Board(fen)` by a
function `derive` on the FEN, both standing for the out-of-scope random
and rules collaborators.  The result pairs the CSV rows, in write order,
with the list of image filenames written, in write order. -/

/-- Python `f"{i:06d}"`: the decimal digits of `i` left-padded with `'0'`
to at least six characters. -/
def pad6 (i : Nat) : String :=
  String.mk (List.replicate (6 - (Nat.repr i).length) '0') ++ Nat.repr i

/-- The image filename of sample `i`: `f"{i:06d}.png"`. -/
def imgFileName (i : Nat) : String :=
  pad6 i ++ ".png"

/-- The fixed header row written once before any data row. -/
def csvHeader : List String :=
  ["id", "fen", "turn", "move_number", "castling_rights", "en_passant",
   "is_check", "is_game_over"]

/-- The generator's loop body over `count` remaining iterations starting
at sample number `i`: returns (data rows, image filenames), each in
write order. -/
def datasetLoop (sample : Nat → String) (derive : String → List String) (i : Nat) :
    Nat → List (List String) × List String
  | 0 => ([], [])
  | count + 1 =>
    let fen := sample i
    let img_file := imgFileName i
    let rest := datasetLoop sample derive (i + 1) count
    ((img_file :: fen :: derive fen) :: rest.1, img_file :: rest.2)

/-- Function `generate_dataset` of `gen_dataset.py`: header row first, then the
loop for `i = 1 .. n`. -/
def generate_dataset (n : Nat) (sample : Nat → String)
    (derive : String → List String) : List (List String) × List String :=
  let body := datasetLoop sample derive 1 n
  (csvHeader :: body.1, body.2)

/-- Python `pathlib`-style filename stem: the name with its last
dot-suffix removed (the whole name when it contains no dot). -/
def filenameStem (s : String) : String :=
  if '.' ∈ s.data then
    String.mk ((((s.data.reverse).dropWhile (fun c => c ≠ '.')).drop 1).reverse)
  else s

/-- Closed form of the generator loop. -/
theorem datasetLoop_eq (sample : Nat → String) (derive : String → List String) :
    ∀ (count i : Nat),
      datasetLoop sample derive i count =
        ((List.range' i count).map
            (fun j => imgFileName j :: sample j :: derive (sample j)),
         (List.range' i count).map imgFileName) := by
  intro count
  induction count with
  | zero => intro i; simp [datasetLoop]
  | succ k ih => intro i; simp [datasetLoop, List.range', ih (i + 1)]

/-- C3 (amended).  For every `n ≥ 1`, `generate_dataset` writes exactly
`n` image files named `f"{i:06d}.png"` for the sequential sample numbers
`i = 1 .. n`, and exactly `n` data rows after the single header row
written before any row, where row `i`'s identifier is the full filename
of image `i` (the zero-padded stem plus the `.png` extension, not the
bare stem). -/
theorem generate_dataset_layout (n : Nat) (sample : Nat → String)
    (derive : String → List String) (hn : 1 ≤ n) :
    (generate_dataset n sample derive).2.length = n ∧
    (generate_dataset n sample derive).1.length = n + 1 ∧
    (generate_dataset n sample derive).1.head? = some csvHeader ∧
    ∀ i, i < n →
      (generate_dataset n sample derive).2.get? i = some (imgFileName (i + 1)) ∧
      (generate_dataset n sample derive).1.get? (i + 1) =
        some (imgFileName (i + 1) :: sample (i + 1) :: derive (sample (i + 1))) := by
  simp only [generate_dataset, datasetLoop_eq]
  refine ⟨by simp, by simp, rfl, ?_⟩
  intro i hi
  have hidx : 1 + 1 * i = i + 1 := by omega
  constructor
  · rw [List.get?_map, List.get?_range' _ _ hi, hidx]
    rfl
  · show ((List.range' 1 n).map
        (fun j => imgFileName j :: sample j :: derive (sample j))).get? i = _
    rw [List.get?_map, List.get?_range' _ _ hi, hidx]
    rfl

/-- Witness for C3 (amended) at `n = 2`. -/
theorem generate_dataset_layout_witness :
    (generate_dataset 2 (fun _ => "8/8/8/8/8/8/8/8 w - - 0 1") (fun _ => [])).2.length = 2 ∧
    (generate_dataset 2 (fun _ => "8/8/8/8/8/8/8/8 w - - 0 1") (fun _ => [])).1.length = 2 + 1 ∧
    (generate_dataset 2 (fun _ => "8/8/8/8/8/8/8/8 w - - 0 1") (fun _ => [])).1.head? =
      some csvHeader ∧
    ∀ i, i < 2 →
      (generate_dataset 2 (fun _ => "8/8/8/8/8/8/8/8 w - - 0 1") (fun _ => [])).2.get? i =
        some (imgFileName (i + 1)) ∧
      (generate_dataset 2 (fun _ => "8/8/8/8/8/8/8/8 w - - 0 1") (fun _ => [])).1.get? (i + 1) =
        some (imgFileName (i + 1) :: "8/8/8/8/8/8/8/8 w - - 0 1" :: []) :=
  generate_dataset_layout 2 (fun _ => "8/8/8/8/8/8/8/8 w - - 0 1") (fun _ => []) (by decide)

/-- C3 counterexample to the claim as stated.  At `n = 1` (any sampler),
the first image is `000001.png` with filename stem `000001`, but the
first data row's identifier is the full filename `000001.png`: the row
identifier does not match the filename stem, and the identifier is not a
bare zero-padded integer. -/
theorem generate_dataset_id_not_stem :
    (generate_dataset 1 (fun _ => "8/8/8/8/8/8/8/8 w - - 0 1") (fun _ => [])).2.get? 0 =
      some "000001.png" ∧
    ((generate_dataset 1 (fun _ => "8/8/8/8/8/8/8/8 w - - 0 1") (fun _ => [])).1.get? 1).map
        (fun row => row.get? 0) = some (some "000001.png") ∧
    filenameStem "000001.png" = "000001" ∧
    ("000001.png" : String) ≠ "000001" := by
  refine ⟨by rfl, by rfl, by rfl, by decide⟩

/-! ### `validate_dataset.py` — metadata validation

`validate_metadata` iterates the metadata rows (here the `id` and `fen`
fields of each row), re-checking each FEN with the rules library —
modelled, as for the renderer, by `lib : String → Except String Bool`
(`error e` = the constructor's exception with message `e`, `ok v` = the
`is_valid()` verdict).  Failures are accumulated, never raised. -/

/-- The accumulation loop of `validate_metadata`: for each row, append
`(id, fen, "Invalid board state")` when the board constructs but is not
valid, `(id, fen, "Error: " ++ e)` when construction raises `e`, and
nothing when the position is valid. -/
def collectInvalid (lib : String → Except String Bool) :
    List (String × String) → List (String × String × String)
  | [] => []
  | row :: rest =>
    match lib row.2 with
    | Except.ok true => collectInvalid lib rest
    | Except.ok false => (row.1, row.2, "Invalid board state") :: collectInvalid lib rest
    | Except.error e => (row.1, row.2, "Error: " ++ e) :: collectInvalid lib rest

/-- One line of the warnings report: `f"{rid}: {fen}  -->  {msg}\n"`. -/
def fmtWarningLine (e : String × String × String) : String :=
  e.1 ++ ": " ++ e.2.1 ++ "  -->  " ++ e.2.2 ++ "\n"

/-- Result of `validate_metadata`: the warnings-report file content when
one was written (`none` = no report file), and whether the success
indication was emitted. -/
structure ValidateResult where
  report : Option (List String)
  success : Bool

/-- Function `validate_metadata` of `validate_dataset.py`: scan all rows, then
write the report file and print the warning count if any row failed,
else print the success message and write nothing. -/
def validate_metadata (lib : String → Except String Bool)
    (rows : List (String × String)) : ValidateResult :=
  let invalid_rows := collectInvalid lib rows
  if invalid_rows.isEmpty then { report := none, success := true }
  else { report := some (invalid_rows.map fmtWarningLine), success := false }

/-- Whether a row's FEN fails the re-check (construction raises, or the
constructed board is not valid). -/
def rowFails (lib : String → Except String Bool) (row : String × String) : Bool :=
  match lib row.2 with
  | Except.ok true => false
  | Except.ok false => true
  | Except.error _ => true

/-- The warning entry a failing row produces: its identifier, its FEN and
the failure reason. -/
def failEntry (lib : String → Except String Bool) (row : String × String) :
    String × String × String :=
  match lib row.2 with
  | Except.ok _ => (row.1, row.2, "Invalid board state")
  | Except.error e => (row.1, row.2, "Error: " ++ e)

/-- The accumulated warnings are exactly one entry per failing row, in
row order. -/
theorem collectInvalid_eq (lib : String → Except String Bool) :
    ∀ rows : List (String × String),
      collectInvalid lib rows = (rows.filter (rowFails lib)).map (failEntry lib) := by
  intro rows
  induction rows with
  | nil => rfl
  | cons row rest ih =>
    rcases hrow : lib row.2 with e | v
    · simp [collectInvalid, hrow, List.filter, rowFails, failEntry, ih]
    · rcases v with _ | _ <;>
        simp [collectInvalid, hrow, List.filter, rowFails, failEntry, ih]

/-- C7.  `validate_metadata` never halts on a bad row: it scans every row
of the table, its warning list is exactly one entry — identifier, FEN,
failure reason — per row whose FEN fails to re-parse to a valid
position, the report file is written if and only if at least one such
failure exists (and then consists of the formatted warning lines), and
otherwise it emits the success indication and writes no report file. -/
theorem validate_metadata_spec (lib : String → Except String Bool)
    (rows : List (String × String)) :
    collectInvalid lib rows = (rows.filter (rowFails lib)).map (failEntry lib) ∧
    ((validate_metadata lib rows).report ≠ none ↔
      (rows.filter (rowFails lib)) ≠ []) ∧
    ((validate_metadata lib rows).report = none ↔
      (validate_metadata lib rows).success = true) ∧
    (validate_metadata lib rows).report =
      (if (rows.filter (rowFails lib)).isEmpty then none
       else some (((rows.filter (rowFails lib)).map (failEntry lib)).map fmtWarningLine)) := by
  have hc := collectInvalid_eq lib rows
  refine ⟨hc, ?_, ?_, ?_⟩
  · unfold validate_metadata
    rw [hc]
    rcases rows.filter (rowFails lib) with _ | ⟨e, es⟩ <;> simp
  · unfold validate_metadata
    rw [hc]
    rcases rows.filter (rowFails lib) with _ | ⟨e, es⟩ <;> simp
  · unfold validate_metadata
    rw [hc]
    rcases rows.filter (rowFails lib) with _ | ⟨e, es⟩ <;> simp

end ChessVision
